import Mathlib

/-
Verification of the statistical helper routines in `imm_cor.py` and `roc.py`.

Shallow embedding conventions:
* Machine floats are idealized as exact rationals / reals, except that the
  numpy behaviour on degenerate arithmetic (division by zero, `log 0`,
  `sqrt` of a negative, arithmetic with infinities) is modelled explicitly
  by the `NFloat` type below: numpy emits a runtime warning and produces
  `inf`, `-inf` or `nan` for these operations, it does NOT raise.
* A pandas dataframe is a list of rows; a missing cell (NaN in a column)
  is `Option.none`.  `dropna` keeps the rows in which every used column is
  present.  A `pd.Series` is a list of (index, value) pairs; constructing
  one from a plain value array and an index of a different length raises
  `ValueError`, which `mkSeries` models.
* Python exceptions are modelled with `Except Err`; the classifier passed
  to the ROC routines is an external collaborator and is therefore a
  parameter (`Classifier`), whose `fit` either returns a fitted model,
  raises `PerfectSeparationError` or raises some other fitting error.
* `sklearn.metrics.roc_curve` / `auc` / `accuracy_score` and `np.round`
  are external library functions; they are parameters of the embedding
  (the `Ext` structure).  `np.interp` and `np.linspace` carry the re-used
  interpolation logic of the core and are embedded concretely.
* `print` diagnostics are modelled by the `Diag` messages accumulated in
  each result.
-/

deriving instance DecidableEq for Except

namespace Utils

/-- Error values standing for the Python exceptions that the embedded code
can raise: `IndexError` (bad numpy indexing), `ValueError` (pandas length
mismatch), `AssertionError` (a failed `assert`), and any fitting error other
than perfect separation, which the code never catches. -/
inductive Err where
  | indexError
  | valueError
  | assertionError
  | fitError
deriving DecidableEq

/-- Diagnostic messages printed by the code, modelled structurally: the
perfect-separation notices of `computeROC` / `computeLOOROC` (carrying the
N that the format string interpolates) and the two lines printed by
`computeCVROC` when not all folds finished. -/
inductive Diag where
  | perfectSep (n : ℕ)
  | perfectSepWhole (n : ℕ)
  | didNotFinish (counter nFolds : ℕ)
  | returningFull
deriving DecidableEq

/-- Numpy floating-point value over an idealized numeric carrier: a finite
value, a signed infinity, or nan.  Numpy arithmetic on these never raises;
degenerate operations produce `inf`/`ninf`/`nan` together with a runtime
warning. -/
inductive NFloat (α : Type) where
  | fin (x : α)
  | inf
  | ninf
  | nan
deriving DecidableEq

namespace NFloat

variable {α : Type} [LinearOrderedField α] [DecidableEq α]
variable [∀ a b : α, Decidable (a < b)] [∀ a b : α, Decidable (a ≤ b)]

/-- Numpy unary negation. -/
def neg : NFloat α → NFloat α
  | fin x => fin (-x)
  | inf => ninf
  | ninf => inf
  | nan => nan

/-- Numpy addition: infinities absorb finite values, opposite infinities
give nan, nan is absorbing. -/
def add : NFloat α → NFloat α → NFloat α
  | nan, _ => nan
  | _, nan => nan
  | fin x, fin y => fin (x + y)
  | fin _, inf => inf
  | inf, fin _ => inf
  | fin _, ninf => ninf
  | ninf, fin _ => ninf
  | inf, inf => inf
  | ninf, ninf => ninf
  | inf, ninf => nan
  | ninf, inf => nan

/-- Numpy subtraction, `a - b = a + (-b)`. -/
def sub (a b : NFloat α) : NFloat α := a.add b.neg

/-- Numpy multiplication: `inf * 0 = nan`, signs propagate, nan absorbs. -/
def mul : NFloat α → NFloat α → NFloat α
  | nan, _ => nan
  | _, nan => nan
  | fin x, fin y => fin (x * y)
  | fin x, inf => if 0 < x then inf else if x < 0 then ninf else nan
  | inf, fin y => if 0 < y then inf else if y < 0 then ninf else nan
  | fin x, ninf => if 0 < x then ninf else if x < 0 then inf else nan
  | ninf, fin y => if 0 < y then ninf else if y < 0 then inf else nan
  | inf, inf => inf
  | inf, ninf => ninf
  | ninf, inf => ninf
  | ninf, ninf => inf

/-- Numpy true division: `0/0 = nan`, `x/0 = ±inf` for finite nonzero `x`
(with a divide-by-zero warning, not an exception), finite/infinite = 0,
infinite/infinite = nan, nan absorbs. -/
def div : NFloat α → NFloat α → NFloat α
  | nan, _ => nan
  | _, nan => nan
  | fin x, fin y =>
      if y = 0 then (if x = 0 then nan else if 0 < x then inf else ninf)
      else fin (x / y)
  | fin _, inf => fin 0
  | fin _, ninf => fin 0
  | inf, fin y => if 0 ≤ y then inf else ninf
  | ninf, fin y => if 0 ≤ y then ninf else inf
  | inf, inf => nan
  | inf, ninf => nan
  | ninf, inf => nan
  | ninf, ninf => nan

/-- True exactly on finite values. -/
def isFin : NFloat α → Bool
  | fin _ => true
  | _ => false

/-- The finite value carried, 0 on `inf`, `ninf`, `nan`. -/
def toVal : NFloat α → α
  | fin x => x
  | _ => 0

/-- Numpy `exp` on the real instantiation: `exp (-inf) = 0`, `exp inf = inf`. -/
noncomputable def exp : NFloat ℝ → NFloat ℝ
  | fin x => fin (Real.exp x)
  | inf => inf
  | ninf => fin 0
  | nan => nan

/-- Numpy `log`: `log 0 = -inf`, `log` of a negative is `nan` (both with a
warning, no exception). -/
noncomputable def log : NFloat ℝ → NFloat ℝ
  | fin x => if 0 < x then fin (Real.log x) else if x = 0 then ninf else nan
  | inf => inf
  | ninf => nan
  | nan => nan

/-- Numpy `sqrt`: `sqrt` of a negative is `nan` (warning, no exception). -/
noncomputable def sqrt : NFloat ℝ → NFloat ℝ
  | fin x => if x < 0 then nan else fin (Real.sqrt x)
  | inf => inf
  | ninf => nan
  | nan => nan

theorem add_fin (x y : α) : (fin x).add (fin y) = fin (x + y) := rfl

theorem mul_fin (x y : α) : (fin x).mul (fin y) = fin (x * y) := rfl

theorem sub_fin (x y : α) : (fin x).sub (fin y) = fin (x - y) := by
  simp [sub, add, neg, sub_eq_add_neg]

theorem div_fin {x y : α} (h : y ≠ 0) : (fin x).div (fin y) = fin (x / y) := by
  simp [div, h]

theorem exp_fin (x : ℝ) : (fin x).exp = fin (Real.exp x) := rfl

theorem log_fin {x : ℝ} (h : 0 < x) : (fin x).log = fin (Real.log x) := by
  simp [log, h]

theorem sqrt_fin {x : ℝ} (h : 0 ≤ x) : (fin x).sqrt = fin (Real.sqrt x) := by
  simp [sqrt, not_lt.mpr h]

theorem add_nan (x : NFloat α) : x.add nan = nan := by cases x <;> rfl

theorem nan_add (x : NFloat α) : (nan : NFloat α).add x = nan := by cases x <;> rfl

theorem div_nan (x : NFloat α) : x.div nan = nan := by cases x <;> rfl

theorem nan_div (x : NFloat α) : (nan : NFloat α).div x = nan := by cases x <;> rfl

theorem sub_nan (x : NFloat α) : x.sub nan = nan := by cases x <;> rfl

theorem fin_sub_inf (x : α) : (fin x).sub inf = ninf := rfl

theorem div_fin_zero_zero : ((fin 0 : NFloat α)).div (fin 0) = nan := by simp [div]

theorem div_fin_zero_pos {x : α} (h : 0 < x) : (fin x).div (fin 0) = inf := by
  simp [div, h, h.ne']

theorem inf_add_fin (x : α) : (inf : NFloat α).add (fin x) = inf := rfl

theorem ninf_add_inf : ((ninf : NFloat α)).add inf = nan := rfl

theorem ninf_sub_inf : ((ninf : NFloat α)).sub inf = ninf := rfl

theorem inf_mul_fin_pos {y : α} (h : 0 < y) : (inf : NFloat α).mul (fin y) = inf := by
  simp [mul, h]

theorem sqrt_inf : (inf : NFloat ℝ).sqrt = inf := rfl

theorem exp_nan : (nan : NFloat ℝ).exp = nan := rfl

theorem exp_ninf : (ninf : NFloat ℝ).exp = fin 0 := rfl

theorem log_fin_zero : (fin (0 : ℝ)).log = ninf := by simp [log]

omit [LinearOrderedField α] in
theorem isFin_nan : (nan : NFloat α).isFin = false := rfl

omit [LinearOrderedField α] in
theorem isFin_ninf : (ninf : NFloat α).isFin = false := rfl

end NFloat

/-! Embedding of `imm_cor.py`, `estTECI`.

A dataframe row for `estTECI` carries the two integer columns that the
function reads (`treatment_col`, `event_col`).  The four cell counts are
the sums of the boolean columns `(df[tc]==1)&(df[ec]==v)` exactly as in the
source; pandas returns them as numpy integers, so the subsequent divisions
are numpy float divisions (`NFloat`), which warn but never raise.  The
Fisher exact test p-value is delegated to the external `myfisher` provider
(out of scope per the specification) and is not part of the embedding. -/

/-- Row of the treatment-efficacy dataframe: the treatment column and the
event column. -/
structure TRow where
  treated : ℤ
  event : ℤ
deriving DecidableEq

/-- Count a: rows with treatment 1 and event 1. -/
def teA (df : List TRow) : ℕ :=
  (df.filter fun r => r.treated == 1 && r.event == 1).length

/-- Count b: rows with treatment 1 and event 0. -/
def teB (df : List TRow) : ℕ :=
  (df.filter fun r => r.treated == 1 && r.event == 0).length

/-- Count c: rows with treatment 0 and event 1. -/
def teC (df : List TRow) : ℕ :=
  (df.filter fun r => r.treated == 0 && r.event == 1).length

/-- Count d: rows with treatment 0 and event 0. -/
def teD (df : List TRow) : ℕ :=
  (df.filter fun r => r.treated == 0 && r.event == 0).length

/-- Body of `estTECI` after the four counts have been taken, in numpy float
arithmetic: `rr = (a/(a+b)) / (c/(c+d))`, `te = 1 - rr`,
`se = sqrt(b/(a*(a+b)) + d/(c*(c+d)))`,
`ci = 1 - exp([log(rr)+se*1.96, log(rr)-se*1.96])`.
Returns `(te, ci[0], ci[1])`. -/
noncomputable def estTECIcounts (a b c d : ℕ) : NFloat ℝ × NFloat ℝ × NFloat ℝ :=
  let A : NFloat ℝ := .fin (a : ℝ)
  let B : NFloat ℝ := .fin (b : ℝ)
  let C : NFloat ℝ := .fin (c : ℝ)
  let D : NFloat ℝ := .fin (d : ℝ)
  let rr := (A.div (A.add B)).div (C.div (C.add D))
  let te := (NFloat.fin 1).sub rr
  let se := ((B.div (A.mul (A.add B))).add (D.div (C.mul (C.add D)))).sqrt
  let ci0 := (NFloat.fin 1).sub ((rr.log.add (se.mul (NFloat.fin 1.96))).exp)
  let ci1 := (NFloat.fin 1).sub ((rr.log.sub (se.mul (NFloat.fin 1.96))).exp)
  (te, ci0, ci1)

/-- Embedding of `estTECI`: build the 2x2 table from the treatment and
event columns, then compute the point estimate and confidence interval.
The result is `(te, ci[0], ci[1])`. -/
noncomputable def estTECI (df : List TRow) : NFloat ℝ × NFloat ℝ × NFloat ℝ :=
  estTECIcounts (teA df) (teB df) (teC df) (teD df)

/-- Relative risk as a real-number formula of the table counts, written as
the specification spells it: `RR = (a/(a+b)) / (c/(c+d))`. -/
noncomputable def RRof (a b c d : ℕ) : ℝ :=
  ((a : ℝ) / ((a : ℝ) + (b : ℝ))) / ((c : ℝ) / ((c : ℝ) + (d : ℝ)))

/-- Standard error of `log RR` as the specification spells it:
`SE = sqrt(b/(a*(a+b)) + d/(c*(c+d)))`. -/
noncomputable def SEof (a b c d : ℕ) : ℝ :=
  Real.sqrt ((b : ℝ) / ((a : ℝ) * ((a : ℝ) + (b : ℝ))) +
    (d : ℝ) / ((c : ℝ) * ((c : ℝ) + (d : ℝ))))

/-- On a table with `a > 0` and `c > 0` every intermediate value of
`estTECIcounts` is finite and the numpy arithmetic coincides with the real
formulas `1 - RR` and `1 - exp(log RR ± 1.96·SE)`. -/
theorem estTECIcounts_fin (a b c d : ℕ) (ha : 0 < a) (hc : 0 < c) :
    estTECIcounts a b c d =
      (.fin (1 - RRof a b c d),
       .fin (1 - Real.exp (Real.log (RRof a b c d) + SEof a b c d * 1.96)),
       .fin (1 - Real.exp (Real.log (RRof a b c d) - SEof a b c d * 1.96))) := by
  have hA : (0 : ℝ) < (a : ℝ) := by exact_mod_cast ha
  have hC : (0 : ℝ) < (c : ℝ) := by exact_mod_cast hc
  have hB : (0 : ℝ) ≤ (b : ℝ) := Nat.cast_nonneg b
  have hD : (0 : ℝ) ≤ (d : ℝ) := Nat.cast_nonneg d
  have hAB : (0 : ℝ) < (a : ℝ) + (b : ℝ) := by linarith
  have hCD : (0 : ℝ) < (c : ℝ) + (d : ℝ) := by linarith
  have hq1 : (0 : ℝ) < (a : ℝ) / ((a : ℝ) + (b : ℝ)) := div_pos hA hAB
  have hq2 : (0 : ℝ) < (c : ℝ) / ((c : ℝ) + (d : ℝ)) := div_pos hC hCD
  have hrr : 0 < RRof a b c d := div_pos hq1 hq2
  have hse : (0 : ℝ) ≤ (b : ℝ) / ((a : ℝ) * ((a : ℝ) + (b : ℝ))) +
      (d : ℝ) / ((c : ℝ) * ((c : ℝ) + (d : ℝ))) := by
    have h1 : (0 : ℝ) ≤ (b : ℝ) / ((a : ℝ) * ((a : ℝ) + (b : ℝ))) :=
      div_nonneg hB (le_of_lt (mul_pos hA hAB))
    have h2 : (0 : ℝ) ≤ (d : ℝ) / ((c : ℝ) * ((c : ℝ) + (d : ℝ))) :=
      div_nonneg hD (le_of_lt (mul_pos hC hCD))
    linarith
  have hrr' : 0 < ((a : ℝ) / ((a : ℝ) + (b : ℝ))) / ((c : ℝ) / ((c : ℝ) + (d : ℝ))) := hrr
  simp only [estTECIcounts, RRof, SEof, NFloat.add_fin, NFloat.mul_fin,
    NFloat.div_fin hAB.ne', NFloat.div_fin hCD.ne',
    NFloat.div_fin hq2.ne', NFloat.div_fin (mul_pos hA hAB).ne',
    NFloat.div_fin (mul_pos hC hCD).ne', NFloat.log_fin hrr',
    NFloat.sqrt_fin hse, NFloat.exp_fin, NFloat.sub_fin]

/-- The standard error is a square root, hence nonnegative. -/
theorem SEof_nonneg (a b c d : ℕ) : 0 ≤ SEof a b c d := Real.sqrt_nonneg _

/-- Numeric bound used for the worked example: `sqrt 0.175 ≥ 0.41833`. -/
theorem sqrt175_lb : (0.41833 : ℝ) ≤ Real.sqrt (7 / 40) := by
  rw [Real.le_sqrt' (by norm_num)]
  norm_num

/-- Numeric bound used for the worked example: `sqrt 0.175 ≤ 0.41834`. -/
theorem sqrt175_ub : Real.sqrt (7 / 40) ≤ (0.41834 : ℝ) := by
  rw [Real.sqrt_le_iff]
  norm_num

set_option maxRecDepth 8000 in
/-- Lower bound on `exp(1.96·sqrt 0.175)` via `(1 + q/64)^64 ≤ exp q`. -/
theorem expq_lb : (2.25 : ℝ) < Real.exp (Real.sqrt (7 / 40) * 1.96) := by
  have hq : (0.8199268 : ℝ) ≤ Real.sqrt (7 / 40) * 1.96 := by
    have h := mul_le_mul_of_nonneg_right sqrt175_lb (by norm_num : (0 : ℝ) ≤ 1.96)
    calc (0.8199268 : ℝ) = 0.41833 * 1.96 := by norm_num
    _ ≤ Real.sqrt (7 / 40) * 1.96 := h
  have h1 : Real.exp (0.8199268 : ℝ) ≤ Real.exp (Real.sqrt (7 / 40) * 1.96) :=
    Real.exp_le_exp.mpr hq
  have h3 : ((0.8199268 : ℝ) / 64 + 1) ≤ Real.exp ((0.8199268 : ℝ) / 64) :=
    Real.add_one_le_exp _
  have h4 : ((0.8199268 : ℝ) / 64 + 1) ^ 64 ≤ Real.exp ((0.8199268 : ℝ) / 64) ^ 64 :=
    pow_le_pow_left₀ (by norm_num) h3 64
  have h9 : Real.exp (0.8199268 : ℝ) = Real.exp ((0.8199268 : ℝ) / 64) ^ 64 := by
    rw [← Real.exp_nat_mul]; norm_num
  have h7 : ((0.8199268 : ℝ) / 64 + 1) ^ 64 ≤ Real.exp (0.8199268 : ℝ) := by
    rw [h9]; exact h4
  have h8 : (2.25 : ℝ) < ((0.8199268 : ℝ) / 64 + 1) ^ 64 := by norm_num
  linarith

set_option maxRecDepth 8000 in
/-- Upper bound on `exp(1.96·sqrt 0.175)` via `exp x ≤ (1/(1 - x/16))^16`. -/
theorem expq_ub : Real.exp (Real.sqrt (7 / 40) * 1.96) < (2.35 : ℝ) := by
  have hq : Real.sqrt (7 / 40) * 1.96 ≤ (0.8199464 : ℝ) := by
    have h := mul_le_mul_of_nonneg_right sqrt175_ub (by norm_num : (0 : ℝ) ≤ 1.96)
    calc Real.sqrt (7 / 40) * 1.96 ≤ 0.41834 * 1.96 := h
    _ = (0.8199464 : ℝ) := by norm_num
  have h1 : Real.exp (Real.sqrt (7 / 40) * 1.96) ≤ Real.exp (0.8199464 : ℝ) :=
    Real.exp_le_exp.mpr hq
  have h3 : Real.exp ((0.8199464 : ℝ) / 16) ≤ 1 / (1 - (0.8199464 : ℝ) / 16) :=
    Real.exp_bound_div_one_sub_of_interval (by norm_num) (by norm_num)
  have h4 : Real.exp ((0.8199464 : ℝ) / 16) ^ 16 ≤ (1 / (1 - (0.8199464 : ℝ) / 16)) ^ 16 :=
    pow_le_pow_left₀ (Real.exp_pos _).le h3 16
  have h9 : Real.exp (0.8199464 : ℝ) = Real.exp ((0.8199464 : ℝ) / 16) ^ 16 := by
    rw [← Real.exp_nat_mul]; norm_num
  have h7 : Real.exp (0.8199464 : ℝ) ≤ (1 / (1 - (0.8199464 : ℝ) / 16)) ^ 16 := by
    rw [h9]; exact h4
  have h8 : (1 / (1 - (0.8199464 : ℝ) / 16)) ^ 16 < (2.35 : ℝ) := by norm_num
  linarith

/-- Example dataframe realizing the 2x2 table a=8, b=2, c=4, d=6. -/
def ds4 : List TRow :=
  List.replicate 8 ⟨1, 1⟩ ++ List.replicate 2 ⟨1, 0⟩ ++
    List.replicate 4 ⟨0, 1⟩ ++ List.replicate 6 ⟨0, 0⟩

/-- Example dataframe realizing the all-ones table a=b=c=d=1. -/
def ds7 : List TRow := [⟨1, 1⟩, ⟨1, 0⟩, ⟨0, 1⟩, ⟨0, 0⟩]

/-- Degenerate dataframe with a=0, b=1, c=1, d=1. -/
def dsDeg : List TRow := [⟨1, 0⟩, ⟨0, 1⟩, ⟨0, 0⟩]

/-- Closed-form evaluation of `estTECI` on the `ds4` example table:
the estimate is −1 and the two confidence bounds are
`1 − 2·exp(±1.96·sqrt 0.175)`. -/
theorem estTECI_ds4_eval :
    estTECI ds4 =
      (.fin (-1),
       .fin (1 - 2 * Real.exp (Real.sqrt (7 / 40) * 1.96)),
       .fin (1 - 2 / Real.exp (Real.sqrt (7 / 40) * 1.96))) := by
  have hA : teA ds4 = 8 := by decide
  have hB : teB ds4 = 2 := by decide
  have hC : teC ds4 = 4 := by decide
  have hD : teD ds4 = 6 := by decide
  rw [estTECI, hA, hB, hC, hD, estTECIcounts_fin 8 2 4 6 (by norm_num) (by norm_num)]
  have hRR : RRof 8 2 4 6 = 2 := by
    rw [RRof]; norm_num
  have hSE : SEof 8 2 4 6 = Real.sqrt (7 / 40) := by
    rw [SEof]; norm_num
  rw [hRR, hSE]
  have h2 : (0 : ℝ) < 2 := by norm_num
  have e1 : Real.exp (Real.log 2 + Real.sqrt (7 / 40) * 1.96) =
      2 * Real.exp (Real.sqrt (7 / 40) * 1.96) := by
    rw [Real.exp_add, Real.exp_log h2]
  have e2 : Real.exp (Real.log 2 - Real.sqrt (7 / 40) * 1.96) =
      2 / Real.exp (Real.sqrt (7 / 40) * 1.96) := by
    rw [Real.exp_sub, Real.exp_log h2]
  rw [e1, e2]
  norm_num

/-- C4 (counterexample): on the table a=8, b=2, c=4, d=6 the code's
confidence interval is finite but its lower bound is below −2.5 and its
upper bound below 0.69, refuting the claimed interval [−2.37, 0.696] at the
spec's stated precision. -/
theorem estTECI_example_ci_refuted :
    ((estTECI ds4).2.1).isFin = true ∧ ((estTECI ds4).2.2).isFin = true ∧
      ((estTECI ds4).2.1).toVal < -2.5 ∧ ((estTECI ds4).2.2).toVal < 0.69 := by
  rw [estTECI_ds4_eval]
  refine ⟨rfl, rfl, ?_, ?_⟩
  · have h := expq_lb
    show 1 - 2 * Real.exp (Real.sqrt (7 / 40) * 1.96) < -2.5
    nlinarith
  · have h := expq_lb
    have hpos := Real.exp_pos (Real.sqrt (7 / 40) * 1.96)
    show 1 - 2 / Real.exp (Real.sqrt (7 / 40) * 1.96) < 0.69
    have hgt : (0.31 : ℝ) < 2 / Real.exp (Real.sqrt (7 / 40) * 1.96) := by
      rw [lt_div_iff hpos]
      nlinarith [expq_ub]
    linarith

/-- C4 (amended): for tables with a > 0 and c > 0, `estTECI` returns the
point estimate `1 − RR` and the interval `1 − exp(log RR ± 1.96·SE)` with
`RR = (a/(a+b))/(c/(c+d))` and `SE = sqrt(b/(a(a+b)) + d/(c(c+d)))`; on the
table a=8, b=2, c=4, d=6 the estimate is −1.0, and the confidence interval
is approximately [−3.54, 0.119] (lower bound in (−3.7,−3.5), upper bound in
(0.1,0.2)) — not [−2.37, 0.696]. -/
theorem estTECI_formula_and_example :
    (∀ df : List TRow, 0 < teA df → 0 < teC df →
        estTECI df =
          (.fin (1 - RRof (teA df) (teB df) (teC df) (teD df)),
           .fin (1 - Real.exp (Real.log (RRof (teA df) (teB df) (teC df) (teD df)) +
             SEof (teA df) (teB df) (teC df) (teD df) * 1.96)),
           .fin (1 - Real.exp (Real.log (RRof (teA df) (teB df) (teC df) (teD df)) -
             SEof (teA df) (teB df) (teC df) (teD df) * 1.96)))) ∧
      (estTECI ds4).1 = .fin (-1) ∧
      (-3.7 < ((estTECI ds4).2.1).toVal ∧ ((estTECI ds4).2.1).toVal < -3.5) ∧
      (0.1 < ((estTECI ds4).2.2).toVal ∧ ((estTECI ds4).2.2).toVal < 0.2) := by
  refine ⟨fun df ha hc => by rw [estTECI, estTECIcounts_fin _ _ _ _ ha hc], ?_, ?_, ?_⟩
  · rw [estTECI_ds4_eval]
  · rw [estTECI_ds4_eval]
    constructor
    · show -3.7 < 1 - 2 * Real.exp (Real.sqrt (7 / 40) * 1.96)
      nlinarith [expq_ub]
    · show 1 - 2 * Real.exp (Real.sqrt (7 / 40) * 1.96) < -3.5
      nlinarith [expq_lb]
  · rw [estTECI_ds4_eval]
    have hpos := Real.exp_pos (Real.sqrt (7 / 40) * 1.96)
    constructor
    · show 0.1 < 1 - 2 / Real.exp (Real.sqrt (7 / 40) * 1.96)
      have hlt : 2 / Real.exp (Real.sqrt (7 / 40) * 1.96) < (0.9 : ℝ) := by
        rw [div_lt_iff hpos]
        nlinarith [expq_lb]
      linarith
    · show 1 - 2 / Real.exp (Real.sqrt (7 / 40) * 1.96) < 0.2
      have hgt : (0.8 : ℝ) < 2 / Real.exp (Real.sqrt (7 / 40) * 1.96) := by
        rw [lt_div_iff hpos]
        nlinarith [expq_ub]
      linarith

/-- C4 (witness): the general formula part of the amended claim applied to
the concrete all-ones table. -/
theorem estTECI_formula_witness :
    0 < teA ds7 ∧ 0 < teC ds7 ∧
      estTECI ds7 =
        (.fin (1 - RRof (teA ds7) (teB ds7) (teC ds7) (teD ds7)),
         .fin (1 - Real.exp (Real.log (RRof (teA ds7) (teB ds7) (teC ds7) (teD ds7)) +
           SEof (teA ds7) (teB ds7) (teC ds7) (teD ds7) * 1.96)),
         .fin (1 - Real.exp (Real.log (RRof (teA ds7) (teB ds7) (teC ds7) (teD ds7)) -
           SEof (teA ds7) (teB ds7) (teC ds7) (teD ds7) * 1.96))) :=
  ⟨by decide, by decide, estTECI_formula_and_example.1 ds7 (by decide) (by decide)⟩

/-- C7: for tables with all four cells positive, both confidence bounds are
finite and they are sorted ascending: the `+1.96·SE` branch feeds the lower
efficacy bound and the `−1.96·SE` branch the upper one. -/
theorem estTECI_ci_sorted (df : List TRow)
    (ha : 0 < teA df) (hb : 0 < teB df) (hc : 0 < teC df) (hd : 0 < teD df) :
    ∃ lo hi : ℝ, (estTECI df).2.1 = .fin lo ∧ (estTECI df).2.2 = .fin hi ∧ lo ≤ hi := by
  rw [estTECI, estTECIcounts_fin _ _ _ _ ha hc]
  refine ⟨_, _, rfl, rfl, ?_⟩
  have hse : 0 ≤ SEof (teA df) (teB df) (teC df) (teD df) * 1.96 :=
    mul_nonneg (SEof_nonneg _ _ _ _) (by norm_num)
  have hexp : Real.exp (Real.log (RRof (teA df) (teB df) (teC df) (teD df)) -
      SEof (teA df) (teB df) (teC df) (teD df) * 1.96) ≤
      Real.exp (Real.log (RRof (teA df) (teB df) (teC df) (teD df)) +
        SEof (teA df) (teB df) (teC df) (teD df) * 1.96) :=
    Real.exp_le_exp.mpr (by linarith)
  linarith

/-- On a degenerate table (a = 0, or a+b = 0, or c = 0, or c+d = 0) the
numpy arithmetic of `estTECIcounts` produces a non-finite estimate or a
non-finite lower confidence bound; no exception is raised. -/
theorem estTECIcounts_degenerate (a b c d : ℕ)
    (h : a = 0 ∨ a + b = 0 ∨ c = 0 ∨ c + d = 0) :
    (estTECIcounts a b c d).1.isFin = false ∨
      (estTECIcounts a b c d).2.1.isFin = false := by
  by_cases hcd : c + d = 0
  · left
    have hc : c = 0 := by omega
    have hd : d = 0 := by omega
    subst hc; subst hd
    simp only [estTECIcounts, Nat.cast_zero, NFloat.add_fin, add_zero,
      NFloat.div_fin_zero_zero, NFloat.div_nan, NFloat.sub_nan, NFloat.isFin_nan]
  by_cases hab : a + b = 0
  · left
    have ha : a = 0 := by omega
    have hb : b = 0 := by omega
    subst ha; subst hb
    simp only [estTECIcounts, Nat.cast_zero, NFloat.add_fin, add_zero,
      NFloat.div_fin_zero_zero, NFloat.nan_div, NFloat.sub_nan, NFloat.isFin_nan]
  have hCD : ((c : ℝ) + (d : ℝ)) ≠ 0 := by
    have : (0:ℕ) < c + d := Nat.pos_of_ne_zero hcd
    have : (0:ℝ) < (c : ℝ) + (d : ℝ) := by exact_mod_cast this
    exact this.ne'
  have hAB : ((a : ℝ) + (b : ℝ)) ≠ 0 := by
    have : (0:ℕ) < a + b := Nat.pos_of_ne_zero hab
    have : (0:ℝ) < (a : ℝ) + (b : ℝ) := by exact_mod_cast this
    exact this.ne'
  by_cases hc : c = 0
  · -- second factor of RR is 0/(c+d) = 0, so RR divides by zero
    left
    subst hc
    have hDne : ((d : ℝ)) ≠ 0 := by
      have : 0 < d := by omega
      exact_mod_cast this.ne'
    by_cases ha : a = 0
    · subst ha
      have hBne : ((b : ℝ)) ≠ 0 := by
        have : 0 < b := by omega
        exact_mod_cast this.ne'
      simp only [estTECIcounts, Nat.cast_zero, NFloat.add_fin, zero_add,
        NFloat.div_fin hBne, NFloat.div_fin hDne, zero_div,
        NFloat.div_fin_zero_zero, NFloat.sub_nan, NFloat.isFin_nan]
    · have hApos : (0 : ℝ) < (a : ℝ) := by
        exact_mod_cast Nat.pos_of_ne_zero ha
      have hABpos : (0 : ℝ) < (a : ℝ) + (b : ℝ) := by
        have := Nat.cast_nonneg (α := ℝ) b
        linarith
      have hq1 : (0 : ℝ) < (a : ℝ) / ((a : ℝ) + (b : ℝ)) := div_pos hApos hABpos
      simp only [estTECIcounts, Nat.cast_zero, NFloat.add_fin, zero_add,
        NFloat.div_fin hABpos.ne', NFloat.div_fin hDne, zero_div,
        NFloat.div_fin_zero_pos hq1, NFloat.fin_sub_inf, NFloat.isFin_ninf]
  -- remaining case: a = 0 with b > 0, c > 0; te = 1 but ci[0] is nan
  have ha : a = 0 := by tauto
  subst ha
  right
  have hb : (0 : ℝ) < (b : ℝ) := by
    have : 0 < b := by omega
    exact_mod_cast this
  have hCpos : (0 : ℝ) < (c : ℝ) := by
    exact_mod_cast Nat.pos_of_ne_zero hc
  have hCDpos : (0 : ℝ) < (c : ℝ) + (d : ℝ) := by
    have := Nat.cast_nonneg (α := ℝ) d
    linarith
  have hq2 : (0 : ℝ) < (c : ℝ) / ((c : ℝ) + (d : ℝ)) := div_pos hCpos hCDpos
  have hCCD : ((c : ℝ) * ((c : ℝ) + (d : ℝ))) ≠ 0 := (mul_pos hCpos hCDpos).ne'
  simp only [estTECIcounts, Nat.cast_zero, NFloat.add_fin, zero_add,
    NFloat.mul_fin, zero_mul, NFloat.div_fin hb.ne', NFloat.div_fin hCDpos.ne',
    NFloat.div_fin hq2.ne', NFloat.div_fin hCCD, zero_div,
    NFloat.div_fin_zero_pos hb, NFloat.log_fin_zero,
    NFloat.inf_add_fin, NFloat.sqrt_inf,
    NFloat.inf_mul_fin_pos (by norm_num : (0:ℝ) < 1.96),
    NFloat.ninf_add_inf, NFloat.exp_nan, NFloat.sub_nan, NFloat.isFin_nan]

/-- C9 (counterexample): on the concrete degenerate dataframe with table
a=0, b=1, c=1, d=1, `estTECI` does not fail; it returns the numeric triple
(estimate 1, lower confidence bound nan, upper confidence bound 1). -/
theorem estTECI_degenerate_returns : estTECI dsDeg = (.fin 1, .nan, .fin 1) := by
  have hA : teA dsDeg = 0 := by decide
  have hB : teB dsDeg = 1 := by decide
  have hC : teC dsDeg = 1 := by decide
  have hD : teD dsDeg = 1 := by decide
  rw [estTECI, hA, hB, hC, hD]
  have h1 : ((0 : ℕ) : ℝ) = 0 := Nat.cast_zero
  have hone : ((1 : ℕ) : ℝ) = 1 := Nat.cast_one
  simp only [estTECIcounts, Nat.cast_zero, Nat.cast_one, NFloat.add_fin,
    zero_add, NFloat.mul_fin, zero_mul,
    NFloat.div_fin (by norm_num : ((1 : ℝ) + 1) ≠ 0),
    NFloat.div_fin (by norm_num : ((1 : ℝ)) ≠ 0)]
  norm_num
  simp only [NFloat.div_fin (by norm_num : ((2 : ℝ)) ≠ 0), zero_div,
    NFloat.div_fin_zero_pos (by norm_num : (0 : ℝ) < 1),
    NFloat.log_fin_zero, NFloat.inf_add_fin, NFloat.sqrt_inf,
    NFloat.inf_mul_fin_pos (by norm_num : (0 : ℝ) < 49 / 25),
    NFloat.ninf_add_inf, NFloat.ninf_sub_inf, NFloat.exp_nan, NFloat.exp_ninf,
    NFloat.sub_nan, NFloat.sub_fin]
  simp only [NFloat.div_fin (by norm_num : ((1 : ℝ) / 2) ≠ 0), zero_div,
    NFloat.log_fin_zero, NFloat.ninf_add_inf, NFloat.ninf_sub_inf,
    NFloat.exp_nan, NFloat.exp_ninf, NFloat.sub_nan, NFloat.sub_fin]
  norm_num

/-- C9 (amended): on every dataframe whose derived table has a = 0 or
a+b = 0 or c = 0 or c+d = 0, `estTECI` does not raise an error: the numpy
divisions warn and return, and the resulting estimate or lower confidence
bound is a non-finite value (nan or an infinity). -/
theorem estTECI_degenerate_nonfinite (df : List TRow)
    (h : teA df = 0 ∨ teA df + teB df = 0 ∨ teC df = 0 ∨ teC df + teD df = 0) :
    (estTECI df).1.isFin = false ∨ (estTECI df).2.1.isFin = false :=
  estTECIcounts_degenerate _ _ _ _ h

/-- C9 (witness): the amended claim applied to the concrete degenerate
dataframe. -/
theorem estTECI_degenerate_nonfinite_witness :
    (teA dsDeg = 0 ∨ teA dsDeg + teB dsDeg = 0 ∨ teC dsDeg = 0 ∨
      teC dsDeg + teD dsDeg = 0) ∧
      ((estTECI dsDeg).1.isFin = false ∨ (estTECI dsDeg).2.1.isFin = false) :=
  ⟨by decide, estTECI_degenerate_nonfinite dsDeg (by decide)⟩

/-- C7 (witness): the sortedness theorem applied to the all-ones table. -/
theorem estTECI_ci_sorted_witness :
    0 < teA ds7 ∧ 0 < teB ds7 ∧ 0 < teC ds7 ∧ 0 < teD ds7 ∧
      ∃ lo hi : ℝ, (estTECI ds7).2.1 = .fin lo ∧ (estTECI ds7).2.2 = .fin hi ∧ lo ≤ hi :=
  ⟨by decide, by decide, by decide, by decide,
   estTECI_ci_sorted ds7 (by decide) (by decide) (by decide) (by decide)⟩

/-! Embedding of `roc.py`.

The float values flowing through the ROC routines involve no transcendental
functions, so they are idealized as exact rationals.  A dataframe row has a
row label (`id`), the outcome column and the predictor columns; a missing
cell is `none`.  The classifier, `sklearn.metrics.roc_curve` / `auc` /
`accuracy_score` and `np.round` are external collaborators and enter as
parameters; `np.linspace` and `np.interp` are embedded concretely. -/

/-- Row of the ROC dataframes: row label, outcome cell, predictor cells;
`none` is a missing value (NaN). -/
structure Row where
  id : ℕ
  outcome : Option ℚ
  preds : List (Option ℚ)
deriving DecidableEq

/-- True when the row survives `df[[outcomeVar] + predVars].dropna()`. -/
def keepRow (r : Row) : Bool := r.outcome.isSome && r.preds.all fun p => p.isSome

/-- The `dropna()` step: keep the rows with no missing used cell. -/
def dropna (df : List Row) : List Row := df.filter keepRow

/-- Predictor matrix `df[predVars].astype(float)` of a (dropped) frame. -/
def Xm (df : List Row) : List (List ℚ) := df.map fun r => r.preds.map fun p => p.getD 0

/-- Outcome vector `df[outcomeVar]` of a (dropped) frame. -/
def yv (df : List Row) : List ℚ := df.map fun r => r.outcome.getD 0

/-- Index (`df.index`) of a frame. -/
def ids (df : List Row) : List ℕ := df.map Row.id

/-- A numpy array that is either 1-dimensional or 2-dimensional; needed
because the duck-typing patch `results.predict_proba = results.predict`
makes `predict_proba` return a 1-D array, on which 2-D indexing raises. -/
inductive NpArr where
  | one (v : List ℚ)
  | two (m : List (List ℚ))

/-- Numpy indexing `arr[:, 1]`: selects column 1 of a 2-D array; raises
`IndexError` on a 1-D array or when a row has fewer than two entries. -/
def colOne : NpArr → Except Err (List ℚ)
  | .two m =>
      if m.all fun row => 2 ≤ row.length then .ok (m.map fun row => row.getD 1 0)
      else .error .indexError
  | .one _ => .error .indexError

/-- Numpy indexing `arr[0, 1]`: entry (0,1) of a 2-D array; raises
`IndexError` on a 1-D array, an empty array, or a short first row. -/
def getZeroOne : NpArr → Except Err ℚ
  | .two (row :: _) => if 2 ≤ row.length then .ok (row.getD 1 0) else .error .indexError
  | .two [] => .error .indexError
  | .one _ => .error .indexError

/-- A fitted model: it may expose `predict_proba` (returning an n×2
probability matrix) and always exposes `predict` (returning a vector). -/
structure FittedModel where
  predictProba? : Option (List (List ℚ) → List (List ℚ))
  predict : List (List ℚ) → List ℚ

/-- Outcome of `model.fit`: the recognized perfect-separation failure or
any other fitting error. -/
inductive FitErr where
  | perfectSeparation
  | other

/-- External classifier capability: `fit(X, y)` returns a fitted model or
raises. -/
structure Classifier where
  fit : List (List ℚ) → List ℚ → Except FitErr FittedModel

/-- Effective `predict_proba` attribute after the duck-typing patch: the
genuine 2-D `predict_proba` when present, otherwise the plain 1-D
`predict` attached in its place. -/
def effProba (fm : FittedModel) : List (List ℚ) → NpArr :=
  match fm.predictProba? with
  | some f => fun X => .two (f X)
  | none => fun X => .one (fm.predict X)

/-- Model results object handed back to the resampling loops: the patched
`predict_proba` is the only attribute they use. -/
structure ResObj where
  probaFn : List (List ℚ) → NpArr

/-- External library functions used by the ROC routines:
`sklearn.metrics.roc_curve` (returning the fpr and tpr arrays),
`sklearn.metrics.auc`, `sklearn.metrics.accuracy_score`, `np.round`. -/
structure Ext where
  rocCurve : List ℚ → List ℚ → List ℚ × List ℚ
  aucOf : List ℚ → List ℚ → ℚ
  accScore : List ℚ → List ℚ → ℚ
  npRound : ℚ → ℚ

/-- Construction of `pd.Series(values, index)`: raises `ValueError` when
the value array and the index have different lengths. -/
def mkSeries {β : Type} (vals : List β) (idx : List ℕ) : Except Err (List (ℕ × β)) :=
  if vals.length = idx.length then .ok (idx.zip vals) else .error .valueError

/-- The endpoint clamp `tpr[0], tpr[-1] = 0, 1`. -/
def clampEnds (l : List ℚ) : List ℚ := (l.set 0 0).set (l.length - 1) 1

/-- The fixed grid `np.linspace(0, 1, 100)`. -/
def grid100 : List ℚ := (List.range 100).map fun i : ℕ => (i : ℚ) / 99

/-- Model of `np.interp` at one point, for an increasing sample array:
constant extrapolation outside the range, linear interpolation inside. -/
def interp1 (x : ℚ) : List ℚ → List ℚ → ℚ
  | x0 :: x1 :: xs, y0 :: y1 :: ys =>
      if x ≤ x0 then y0
      else if x ≤ x1 then y0 + (y1 - y0) * (x - x0) / (x1 - x0)
      else interp1 x (x1 :: xs) (y1 :: ys)
  | [_], y0 :: _ => y0
  | _, _ => 0

/-- Model of `np.interp(xs, xp, fp)`. -/
def interpList (xs xp fp : List ℚ) : List ℚ := xs.map fun x => interp1 x xp fp

/-- Result of `computeROC`: fpr, tpr, auc, acc, the results object (`none`
after a perfect-separation recovery), the probability series, and the
diagnostics printed. -/
structure ROCResult where
  fpr : List ℚ
  tpr : List ℚ
  auc : ℚ
  acc : ℚ
  res : Option ResObj
  prob : List (ℕ × Option ℚ)
  diags : List Diag

/-- Embedding of `computeROC`: drop missing rows, fit, take the predicted
probability of the positive class (falling back to `predict`), compute the
curve, accuracy and AUC, clamp the curve endpoints; on a
`PerfectSeparationError` recover with acc = auc = 1, the degenerate
five-point curve, the outcome column of the UNFILTERED input as the
probability values (indexed by the filtered index — `pd.Series` raises when
the lengths differ), no results object, and a printed diagnostic.  The
final `assert acc <= 1` is embedded as a conditional `AssertionError`. -/
def computeROC (ext : Ext) (model : Classifier) (df : List Row) :
    Except Err ROCResult :=
  let tmp := dropna df
  match model.fit (Xm tmp) (yv tmp) with
  | .error .perfectSeparation =>
      match mkSeries (df.map fun r => r.outcome) (ids tmp) with
      | .error e => .error e
      | .ok s =>
          if (1 : ℚ) ≤ 1 then
            .ok ⟨List.replicate 5 0, [0, 1, 1, 1, 1], 1, 1, none, s,
                 [.perfectSep tmp.length]⟩
          else .error .assertionError
  | .error .other => .error .fitError
  | .ok fm =>
      match (match fm.predictProba? with
             | some f => colOne (.two (f (Xm tmp)))
             | none => .ok (fm.predict (Xm tmp))) with
      | .error e => .error e
      | .ok prob =>
          let c := ext.rocCurve (yv tmp) prob
          let acc := ext.accScore (yv tmp) (prob.map ext.npRound)
          let auc := ext.aucOf c.1 c.2
          let tprC := clampEnds c.2
          match mkSeries (prob.map some) (ids tmp) with
          | .error e => .error e
          | .ok s =>
              if acc ≤ 1 then
                .ok ⟨c.1, tprC, auc, acc, some ⟨effProba fm⟩, s, []⟩
              else .error .assertionError

/-- Result of the two resampling routines: the 100-point fpr grid, the
aggregate tpr, auc, acc, the per-fold results objects, the out-of-fold
probability series, the success flag, and the diagnostics printed. -/
structure CVResult where
  fpr : List ℚ
  tpr : List ℚ
  auc : ℚ
  acc : ℚ
  results : List (Option ResObj)
  prob : List (ℕ × Option ℚ)
  success : Bool
  diags : List Diag

/-- Per-fold data of a completed `computeCVROC` fold: the fold's tpr column
interpolated on the grid, its test accuracy, its results object, and its
test-probability series. -/
structure FoldData where
  tprCol : List ℚ
  accVal : ℚ
  resObj : ResObj
  probPart : List (ℕ × ℚ)

/-- The `tmp.iloc[indexList]` slice of a frame. -/
def sliceOf (tmp : List Row) (idxs : List ℕ) : List Row :=
  idxs.filterMap fun i => tmp.get? i

/-- One iteration of the `computeCVROC` loop: run `computeROC` on the
training slice; a `None` results object marks the fold failed (counted,
not fitted); otherwise predict the held-out slice through the patched
`predict_proba` (2-D indexing — this raises on a plain-predict model),
compute the fold curve, interpolate it onto the grid and record the fold
accuracy and test probabilities. -/
def cvFold (ext : Ext) (model : Classifier) (tmp : List Row)
    (fold : List ℕ × List ℕ) : Except Err (Option FoldData × List Diag) :=
  let trainDf := sliceOf tmp fold.1
  let testDf := sliceOf tmp fold.2
  match computeROC ext model trainDf with
  | .error e => .error e
  | .ok r =>
      match r.res with
      | none => .ok (none, r.diags)
      | some ro =>
          match colOne (ro.probaFn (Xm testDf)) with
          | .error e => .error e
          | .ok testProb =>
              let c := ext.rocCurve (yv testDf) testProb
              match mkSeries testProb (ids testDf) with
              | .error e => .error e
              | .ok s =>
                  .ok (some ⟨interpList grid100 c.1 c.2,
                             ext.accScore (yv testDf) (testProb.map ext.npRound),
                             ro, s⟩, r.diags)

/-- The fold loop of `computeCVROC`, propagating uncaught exceptions. -/
def cvLoop (ext : Ext) (model : Classifier) (tmp : List Row) :
    List (List ℕ × List ℕ) → Except Err (List (Option FoldData × List Diag))
  | [] => .ok []
  | f :: fs =>
      match cvFold ext model tmp f with
      | .error e => .error e
      | .ok o =>
          match cvLoop ext model tmp fs with
          | .error e => .error e
          | .ok os => .ok (o :: os)

/-- The `np.nanmean(tpr, axis=1)` step restricted to the completed columns
(the failed folds leave all-nan columns, which nanmean skips). -/
def nanmeanCols (cols : List (List ℚ)) : List ℚ :=
  (List.range 100).map fun j => ((cols.map fun col => col.getD j 0).sum) / (cols.length : ℚ)

/-- Insertion of a key into a sorted key list, for the groupby order. -/
def insertSorted (k : ℕ) : List ℕ → List ℕ
  | [] => [k]
  | x :: xs => if k ≤ x then k :: x :: xs else x :: insertSorted k xs

/-- Ascending sort of the distinct keys, as pandas `groupby` sorts them. -/
def sortNat (l : List ℕ) : List ℕ := l.foldr insertSorted []

/-- The `pd.concat(prob).groupby(level=0).agg(np.mean)` step: mean of the
collected test probabilities per row label, sorted by label. -/
def groupMean (l : List (ℕ × ℚ)) : List (ℕ × ℚ) :=
  (sortNat (l.map Prod.fst).eraseDups).map fun k =>
    (k, ((l.filter fun p => p.1 == k).map Prod.snd).sum /
      (((l.filter fun p => p.1 == k).length : ℚ)))

/-- Embedding of `computeCVROC`.  The sklearn `KFold` object is an external
collaborator: it yields exactly `nFolds` train/test index pairs with a
fixed seed, so the fold list is a parameter and `nFolds` is its length.
With all folds counted, aggregate the per-fold columns and report
success; otherwise print the two notices, refit `computeROC` once on the
complete dropped frame, interpolate its curve onto the grid and report
`success = false`.  The two `assert` statements are embedded as
conditional `AssertionError`s. -/
def computeCVROC (ext : Ext) (model : Classifier) (df : List Row)
    (folds : List (List ℕ × List ℕ)) : Except Err CVResult :=
  let tmp := dropna df
  let nFolds := folds.length
  match cvLoop ext model tmp folds with
  | .error e => .error e
  | .ok outs =>
      let foldDiags := (outs.map Prod.snd).join
      let datas := outs.filterMap Prod.fst
      let counter := datas.length
      if counter = nFolds then
        let meanTPR := clampEnds (nanmeanCols (datas.map FoldData.tprCol))
        let meanACC := (datas.map FoldData.accVal).sum / (counter : ℚ)
        let meanAUC := ext.aucOf grid100 meanTPR
        let probS := groupMean ((datas.map FoldData.probPart).join)
        if probS.length = tmp.length then
          if meanACC ≤ 1 then
            .ok ⟨grid100, meanTPR, meanAUC, meanACC,
                 datas.map fun d => some d.resObj,
                 probS.map fun p => (p.1, some p.2), true, foldDiags⟩
          else .error .assertionError
        else .error .assertionError
      else
        match computeROC ext model tmp with
        | .error e => .error e
        | .ok s =>
            let meanTPR := clampEnds (interpList grid100 s.fpr s.tpr)
            if s.acc ≤ 1 then
              .ok ⟨grid100, meanTPR, s.auc, s.acc, [s.res], s.prob, false,
                   foldDiags ++ [.didNotFinish counter nFolds, .returningFull] ++ s.diags⟩
            else .error .assertionError

/-- One iteration of the `computeLOOROC` loop on test row `i`: record the
held-out outcome, fit on the rest; on perfect separation borrow the
whole-dataset probability for row `i` and record a `None` results object;
otherwise predict the single held-out row through the patched
`predict_proba` with 2-D indexing. -/
def looFold (ext : Ext) (model : Classifier) (tmp : List Row)
    (wholeProb : List ℚ) (i : ℕ) : Except Err (ℚ × ℚ × Option ResObj × List Diag) :=
  let trainDf := tmp.eraseIdx i
  let testDf := sliceOf tmp [i]
  let oi := (yv testDf).headD 0
  match model.fit (Xm trainDf) (yv trainDf) with
  | .error .perfectSeparation =>
      .ok (oi, wholeProb.getD i 0, none, [.perfectSep tmp.length])
  | .error .other => .error .fitError
  | .ok fm =>
      match getZeroOne (effProba fm (Xm testDf)) with
      | .error e => .error e
      | .ok p => .ok (oi, p, some ⟨effProba fm⟩, [])

/-- The leave-one-out loop over the test row indices. -/
def looLoop (ext : Ext) (model : Classifier) (tmp : List Row) (wholeProb : List ℚ) :
    List ℕ → Except Err (List (ℚ × ℚ × Option ResObj × List Diag))
  | [] => .ok []
  | i :: is =>
      match looFold ext model tmp wholeProb i with
      | .error e => .error e
      | .ok t =>
          match looLoop ext model tmp wholeProb is with
          | .error e => .error e
          | .ok ts => .ok (t :: ts)

/-- Embedding of `computeLOOROC`: drop missing rows, fit once on the whole
frame (for borrowing on per-fold perfect separation); if that fit itself
raises perfect separation, short-circuit before any fold with the outcome
column as the probabilities, acc = auc = 1, a clamped interpolated curve,
all-`None` results and `success = false`.  Otherwise run one fold per row
(the `LeaveOneOut` index pairs are `([all but i], [i])` for `i < n`),
aggregate the out-of-fold probabilities into one curve and report
`success = true`. -/
def computeLOOROC (ext : Ext) (model : Classifier) (df : List Row) :
    Except Err CVResult :=
  let tmp := dropna df
  let n := tmp.length
  match model.fit (Xm tmp) (yv tmp) with
  | .error .perfectSeparation =>
      let outcome := yv tmp
      let c := ext.rocCurve outcome outcome
      let tpr := clampEnds (interpList grid100 c.1 c.2)
      match mkSeries (outcome.map some) (ids tmp) with
      | .error e => .error e
      | .ok probS =>
          if probS.length = tmp.length then
            .ok ⟨grid100, tpr, 1, 1, List.replicate n none, probS, false,
                 [.perfectSepWhole n]⟩
          else .error .assertionError
  | .error .other => .error .fitError
  | .ok wholeFm =>
      match colOne (effProba wholeFm (Xm tmp)) with
      | .error e => .error e
      | .ok wholeProb =>
          match looLoop ext model tmp wholeProb (List.range n) with
          | .error e => .error e
          | .ok ts =>
              let outcome := ts.map fun t => t.1
              let probv := ts.map fun t => t.2.1
              let resL := ts.map fun t => t.2.2.1
              let dg := (ts.map fun t => t.2.2.2).join
              let c := ext.rocCurve outcome probv
              let tpr := clampEnds (interpList grid100 c.1 c.2)
              let acc := ext.accScore outcome (probv.map ext.npRound)
              let auc := ext.aucOf c.1 c.2
              match mkSeries (probv.map some) (ids tmp) with
              | .error e => .error e
              | .ok probS =>
                  if probS.length = tmp.length then
                    .ok ⟨grid100, tpr, auc, acc, resL, probS, true, dg⟩
                  else .error .assertionError

/-! Embedding of `rocStats`.  The counts are numpy integers; the stats are
numpy float divisions, so they are `NFloat ℚ` values (a zero denominator
warns and yields nan or an infinity, it does not raise). -/

/-- The stats record returned by `rocStats`, in the source's order
(`OR` is called `oddsRatio`). -/
structure RocStatsR where
  sens : NFloat ℚ
  spec : NFloat ℚ
  ppv : NFloat ℚ
  npv : NFloat ℚ
  nnt : NFloat ℚ
  acc : NFloat ℚ
  rr : NFloat ℚ
  oddsRatio : NFloat ℚ
deriving DecidableEq

/-- Count a: observed true and predicted true (`astype(bool)` maps a value
to true exactly when it is nonzero). -/
def tblA (obs pred : List ℚ) : ℕ :=
  ((obs.zip pred).filter fun p => p.1 != 0 && p.2 != 0).length

/-- Count b: observed true, predicted false. -/
def tblB (obs pred : List ℚ) : ℕ :=
  ((obs.zip pred).filter fun p => p.1 != 0 && p.2 == 0).length

/-- Count c: observed false, predicted true. -/
def tblC (obs pred : List ℚ) : ℕ :=
  ((obs.zip pred).filter fun p => p.1 == 0 && p.2 != 0).length

/-- Count d: observed false, predicted false. -/
def tblD (obs pred : List ℚ) : ℕ :=
  ((obs.zip pred).filter fun p => p.1 == 0 && p.2 == 0).length

/-- Embedding of `rocStats`: after the length assert, build the 2x2 table
from the two aligned vectors and compute the eight statistics with numpy
float arithmetic. -/
def rocStats (obs pred : List ℚ) : Except Err RocStatsR :=
  if obs.length = pred.length then
    let n : NFloat ℚ := .fin (obs.length : ℚ)
    let a : NFloat ℚ := .fin (tblA obs pred : ℚ)
    let b : NFloat ℚ := .fin (tblB obs pred : ℚ)
    let c : NFloat ℚ := .fin (tblC obs pred : ℚ)
    let d : NFloat ℚ := .fin (tblD obs pred : ℚ)
    .ok ⟨a.div (a.add b), d.div (c.add d), a.div (a.add c), d.div (b.add d),
         (NFloat.fin 1).div ((a.div (a.add c)).sub (b.div (b.add d))),
         (a.add d).div n,
         (a.div (a.add c)).div (b.div (b.add d)),
         (a.div b).div (c.div d)⟩
  else .error .assertionError

/-- C8: for equal-length binary vectors whose 2x2 table has all four cells
positive, `rocStats` returns exactly the claimed formulas (sensitivity
a/(a+b), specificity d/(c+d), PPV a/(a+c), NPV d/(b+d), accuracy (a+d)/n,
relative rate (a/(a+c))/(b/(b+d)), odds ratio (a/b)/(c/d), and NNT
1/(a/(a+c) − b/(b+d)) when that denominator is nonzero); and on
obs = [1,1,0,0], pred = [1,0,1,0] the table is all-ones and sens = spec =
ppv = npv = acc = 1/2. -/
theorem rocStats_formulas :
    (∀ obs pred : List ℚ, obs.length = pred.length →
      ∀ (_ : 0 < tblA obs pred) (_ : 0 < tblB obs pred)
        (_ : 0 < tblC obs pred) (_ : 0 < tblD obs pred),
        (rocStats obs pred).map (fun s => (s.sens, s.spec, s.ppv, s.npv, s.acc, s.rr, s.oddsRatio)) =
          .ok (.fin ((tblA obs pred : ℚ) / ((tblA obs pred : ℚ) + (tblB obs pred : ℚ))),
               .fin ((tblD obs pred : ℚ) / ((tblC obs pred : ℚ) + (tblD obs pred : ℚ))),
               .fin ((tblA obs pred : ℚ) / ((tblA obs pred : ℚ) + (tblC obs pred : ℚ))),
               .fin ((tblD obs pred : ℚ) / ((tblB obs pred : ℚ) + (tblD obs pred : ℚ))),
               .fin (((tblA obs pred : ℚ) + (tblD obs pred : ℚ)) / (obs.length : ℚ)),
               .fin (((tblA obs pred : ℚ) / ((tblA obs pred : ℚ) + (tblC obs pred : ℚ))) /
                 ((tblB obs pred : ℚ) / ((tblB obs pred : ℚ) + (tblD obs pred : ℚ)))),
               .fin (((tblA obs pred : ℚ) / (tblB obs pred : ℚ)) /
                 ((tblC obs pred : ℚ) / (tblD obs pred : ℚ)))) ∧
        ((tblA obs pred : ℚ) / ((tblA obs pred : ℚ) + (tblC obs pred : ℚ)) -
            (tblB obs pred : ℚ) / ((tblB obs pred : ℚ) + (tblD obs pred : ℚ)) ≠ 0 →
          (rocStats obs pred).map (fun s => s.nnt) =
            .ok (.fin (1 / ((tblA obs pred : ℚ) / ((tblA obs pred : ℚ) + (tblC obs pred : ℚ)) -
              (tblB obs pred : ℚ) / ((tblB obs pred : ℚ) + (tblD obs pred : ℚ))))))) ∧
      (rocStats [1, 1, 0, 0] [1, 0, 1, 0]).map
          (fun s => (s.sens, s.spec, s.ppv, s.npv, s.acc)) =
        .ok (.fin (1 / 2), .fin (1 / 2), .fin (1 / 2), .fin (1 / 2), .fin (1 / 2)) := by
  constructor
  · intro obs pred hlen hA hB hC hD
    have hA' : (0 : ℚ) < (tblA obs pred : ℚ) := by exact_mod_cast hA
    have hB' : (0 : ℚ) < (tblB obs pred : ℚ) := by exact_mod_cast hB
    have hC' : (0 : ℚ) < (tblC obs pred : ℚ) := by exact_mod_cast hC
    have hD' : (0 : ℚ) < (tblD obs pred : ℚ) := by exact_mod_cast hD
    have hAB : ((tblA obs pred : ℚ) + (tblB obs pred : ℚ)) ≠ 0 := by positivity
    have hCD : ((tblC obs pred : ℚ) + (tblD obs pred : ℚ)) ≠ 0 := by positivity
    have hAC : ((tblA obs pred : ℚ) + (tblC obs pred : ℚ)) ≠ 0 := by positivity
    have hBD : ((tblB obs pred : ℚ) + (tblD obs pred : ℚ)) ≠ 0 := by positivity
    have hn : ((obs.length : ℚ)) ≠ 0 := by
      have h1 : 0 < obs.length := by
        by_contra h
        have h0 : obs = [] := List.length_eq_zero.mp (by omega)
        subst h0
        simp [tblA] at hA
      positivity
    have hq2 : ((tblB obs pred : ℚ) / ((tblB obs pred : ℚ) + (tblD obs pred : ℚ))) ≠ 0 := by
      have : 0 < (tblB obs pred : ℚ) / ((tblB obs pred : ℚ) + (tblD obs pred : ℚ)) := by
        positivity
      exact this.ne'
    have hq4 : ((tblC obs pred : ℚ) / (tblD obs pred : ℚ)) ≠ 0 := by
      have : 0 < (tblC obs pred : ℚ) / (tblD obs pred : ℚ) := by positivity
      exact this.ne'
    constructor
    · simp only [rocStats, if_pos hlen, NFloat.add_fin, Except.map,
        NFloat.div_fin hAB, NFloat.div_fin hCD, NFloat.div_fin hAC,
        NFloat.div_fin hBD, NFloat.div_fin hn, NFloat.div_fin hq2,
        NFloat.div_fin hB'.ne', NFloat.div_fin hD'.ne', NFloat.div_fin hq4]
    · intro hdiff
      simp only [rocStats, if_pos hlen, NFloat.add_fin, Except.map,
        NFloat.div_fin hAC, NFloat.div_fin hBD, NFloat.sub_fin,
        NFloat.div_fin hdiff]
  · have hA : tblA [1, 1, 0, 0] [1, 0, 1, 0] = 1 := rfl
    have hB : tblB [1, 1, 0, 0] [1, 0, 1, 0] = 1 := rfl
    have hC : tblC [1, 1, 0, 0] [1, 0, 1, 0] = 1 := rfl
    have hD : tblD [1, 1, 0, 0] [1, 0, 1, 0] = 1 := rfl
    simp only [rocStats, List.length_cons, List.length_nil, ite_true]
    simp only [hA, hB, hC, hD, Nat.cast_one, Except.map, NFloat.add_fin]
    norm_num [NFloat.div_fin (by norm_num : ((2 : ℚ)) ≠ 0),
      NFloat.div_fin (by norm_num : ((4 : ℚ)) ≠ 0)]

/-! Concrete external collaborators and dataframes used by the closed
evaluations and witnesses. -/

/-- A trivial instantiation of the external library functions: the ROC
curve of any data is ([0,1],[0,1]), auc and accuracy are 0, rounding is the
identity. -/
def extT : Ext := ⟨fun _ _ => ([0, 1], [0, 1]), fun _ _ => 0, fun _ _ => 0, fun x => x⟩

/-- A classifier whose fit always raises `PerfectSeparationError`. -/
def psM : Classifier := ⟨fun _ _ => .error .perfectSeparation⟩

/-- A fitted model exposing only a plain `predict` (no probability
interface), predicting 0 for every row. -/
def plainFitted : FittedModel := ⟨none, fun X => X.map fun _ => 0⟩

/-- A classifier whose fit always succeeds with `plainFitted`. -/
def plainM : Classifier := ⟨fun _ _ => .ok plainFitted⟩

/-- A two-row dataframe with no missing values. -/
def dfA : List Row := [⟨0, some 1, [some 0]⟩, ⟨1, some 0, [some 1]⟩]

/-- A two-row dataframe whose second row has a missing outcome, so
`dropna` removes it. -/
def dfMiss : List Row := [⟨0, some 1, [some 0]⟩, ⟨1, none, [some 1]⟩]

/-- A single k-fold split: train on row 0, test on row 1. -/
def folds1 : List (List ℕ × List ℕ) := [([0], [1])]

instance : Inhabited CVResult := ⟨⟨[], [], 0, 0, [], [], false, []⟩⟩

instance : Inhabited ROCResult := ⟨⟨[], [], 0, 0, none, [], []⟩⟩

/-- A list whose filtering keeps its length is kept whole. -/
theorem filter_length_eq {α : Type} (p : α → Bool) :
    ∀ l : List α, (List.filter p l).length = l.length → List.filter p l = l := by
  intro l
  induction l with
  | nil => intro _; rfl
  | cons a l ih =>
      intro h
      by_cases hpa : p a
      · rw [List.filter_cons_of_pos hpa] at h ⊢
        rw [ih (by simpa using h)]
      · rw [List.filter_cons_of_neg hpa] at h
        have := List.length_filter_le p l
        simp at h
        omega

/-- Shared evaluation of the perfect-separation recovery branch of
`computeROC` on an input with no missing rows. -/
theorem computeROC_psEval (ext : Ext) (model : Classifier) (df : List Row)
    (hdrop : dropna df = df)
    (hfit : model.fit (Xm df) (yv df) = .error .perfectSeparation) :
    computeROC ext model df =
      .ok ⟨List.replicate 5 0, [0, 1, 1, 1, 1], 1, 1, none,
           df.map (fun r => (r.id, r.outcome)), [.perfectSep df.length]⟩ := by
  simp only [computeROC, hdrop, hfit, mkSeries, ids, List.length_map, ite_true,
    if_pos (le_refl (1 : ℚ))]
  congr 1
  rw [List.zip_map']

/-- C2 (amended): when the classifier fit raises perfect separation and no
row of the input was dropped, `computeROC` recovers (it does not propagate
the error): accuracy 1, AUC 1, the degenerate five-point curve with
`fpr = [0,0,0,0,0]` and `tpr = [0,1,1,1,1]` — first point (0,0), last point
(0,1), not (1,1) — the probability series carrying the observed outcome
column, no fitted-model handle, and a printed diagnostic. -/
theorem computeROC_perfect_separation (ext : Ext) (model : Classifier) (df : List Row)
    (hdrop : dropna df = df)
    (hfit : model.fit (Xm df) (yv df) = .error .perfectSeparation) :
    computeROC ext model df =
      .ok ⟨List.replicate 5 0, [0, 1, 1, 1, 1], 1, 1, none,
           df.map (fun r => (r.id, r.outcome)), [.perfectSep df.length]⟩ :=
  computeROC_psEval ext model df hdrop hfit

/-- C2 (witness): the recovery branch on a concrete complete dataframe. -/
theorem computeROC_perfect_separation_witness :
    dropna dfA = dfA ∧ psM.fit (Xm dfA) (yv dfA) = .error .perfectSeparation ∧
      computeROC extT psM dfA =
        .ok ⟨List.replicate 5 0, [0, 1, 1, 1, 1], 1, 1, none,
             dfA.map (fun r => (r.id, r.outcome)), [.perfectSep dfA.length]⟩ :=
  ⟨rfl, rfl, computeROC_perfect_separation extT psM dfA rfl rfl⟩

/-- C2 (counterexample): on a concrete complete dataframe with a
perfect-separation fit, the recovered curve's last point has
false-positive rate 0, not 1: the fpr vector is `np.zeros(5)` and is never
re-clamped, so the curve ends at (0,1). -/
theorem computeROC_ps_last_point :
    (computeROC extT psM dfA).map (fun r => (r.fpr.getLast?, r.tpr.getLast?)) =
      .ok (some 0, some 1) ∧ ((0 : ℚ), (1 : ℚ)) ≠ ((1 : ℚ), (1 : ℚ)) := by
  constructor
  · rfl
  · intro h
    have := congrArg Prod.fst h
    norm_num at this

/-- C10: the perfect-separation recovery of `computeROC` takes its
probability values from the unfiltered input's outcome column but indexes
them by the missing-dropped frame: with no missing rows the returned
series maps each row label to its observed outcome, and with any dropped
row the `pd.Series` construction raises `ValueError` instead of
recovering. -/
theorem computeROC_recovery_indexing :
    (∀ (ext : Ext) (model : Classifier) (df : List Row), dropna df = df →
        model.fit (Xm df) (yv df) = .error .perfectSeparation →
        (computeROC ext model df).map (fun r => r.prob) =
          .ok (df.map fun r => (r.id, r.outcome))) ∧
    (∀ (ext : Ext) (model : Classifier) (df : List Row), dropna df ≠ df →
        model.fit (Xm (dropna df)) (yv (dropna df)) = .error .perfectSeparation →
        computeROC ext model df = .error .valueError) := by
  constructor
  · intro ext model df hdrop hfit
    rw [computeROC_psEval ext model df hdrop hfit]
    rfl
  · intro ext model df hne hfit
    have hlen : (dropna df).length ≠ df.length := by
      intro hlen
      exact hne (filter_length_eq keepRow df hlen)
    simp only [computeROC, hfit, mkSeries, ids, List.length_map]
    rw [if_neg (by omega)]

/-- C10 (witness): the two halves of the indexing claim on concrete
dataframes — complete input recovers with the outcomes as probabilities,
input with a missing row raises. -/
theorem computeROC_recovery_indexing_witness :
    (dropna dfA = dfA ∧
      (computeROC extT psM dfA).map (fun r => r.prob) =
        .ok (dfA.map fun r => (r.id, r.outcome))) ∧
    (dropna dfMiss ≠ dfMiss ∧
      computeROC extT psM dfMiss = .error .valueError) :=
  ⟨⟨rfl, computeROC_recovery_indexing.1 extT psM dfA rfl rfl⟩,
   ⟨by decide, computeROC_recovery_indexing.2 extT psM dfMiss (by decide) rfl⟩⟩

/-- C3: when the up-front whole-dataset fit of `computeLOOROC` raises
perfect separation, the function short-circuits before the fold loop and
returns `success = false`, accuracy 1, auc 1, with one `None` results
object per row (no per-row fold is fitted). -/
theorem computeLOOROC_wholefit_ps (ext : Ext) (model : Classifier) (df : List Row)
    (hfit : model.fit (Xm (dropna df)) (yv (dropna df)) = .error .perfectSeparation) :
    (computeLOOROC ext model df).map (fun r => (r.success, r.acc, r.auc, r.results)) =
      .ok (false, 1, 1, List.replicate (dropna df).length none) := by
  have hyl : ∀ d : List Row, (yv d).length = d.length := fun d => List.length_map _ _
  have hil : ∀ d : List Row, (ids d).length = d.length := fun d => List.length_map _ _
  simp only [computeLOOROC, hfit, mkSeries, List.length_map, hyl, hil, ite_true,
    List.length_zip, min_self, Except.map]

/-- C3 (witness): the short-circuit on a concrete complete dataframe with
an always-perfectly-separating classifier. -/
theorem computeLOOROC_wholefit_ps_witness :
    psM.fit (Xm (dropna dfA)) (yv (dropna dfA)) = .error .perfectSeparation ∧
      (computeLOOROC extT psM dfA).map (fun r => (r.success, r.acc, r.auc, r.results)) =
        .ok (false, 1, 1, List.replicate (dropna dfA).length none) :=
  ⟨rfl, computeLOOROC_wholefit_ps extT psM dfA rfl⟩

theorem clampEnds_length (l : List ℚ) : (clampEnds l).length = l.length := by
  simp [clampEnds]

theorem clampEnds_first {l : List ℚ} (h : l.length = 100) :
    (clampEnds l)[0]? = some 0 := by
  unfold clampEnds
  rw [List.getElem?_set_ne (by omega : l.length - 1 ≠ 0)]
  exact List.getElem?_set_eq_of_lt 0 (by omega)

theorem clampEnds_last {l : List ℚ} (h : l.length = 100) :
    (clampEnds l)[99]? = some 1 := by
  unfold clampEnds
  rw [show l.length - 1 = 99 by omega]
  refine List.getElem?_set_eq_of_lt 1 ?_
  rw [List.length_set]
  omega

theorem grid100_length : grid100.length = 100 := by
  rw [grid100, List.length_map, List.length_range]

theorem grid100_first : grid100[0]? = some 0 := by
  rw [grid100, List.getElem?_map, List.getElem?_range (by norm_num)]
  simp

theorem grid100_last : grid100[99]? = some 1 := by
  rw [grid100, List.getElem?_map, List.getElem?_range (by norm_num)]
  simp

theorem nanmeanCols_length (cols : List (List ℚ)) : (nanmeanCols cols).length = 100 := by
  rw [nanmeanCols, List.length_map, List.length_range]

theorem interpList_grid_length (xp fp : List ℚ) :
    (interpList grid100 xp fp).length = 100 := by
  rw [interpList, List.length_map, grid100_length]

/-- The endpoint conjunction asserted by C5, as a predicate on a result. -/
def curvePinned (r : CVResult) : Prop :=
  r.fpr.length = 100 ∧ r.tpr.length = 100 ∧
    r.fpr[0]? = some 0 ∧ r.tpr[0]? = some 0 ∧
    r.fpr[99]? = some 1 ∧ r.tpr[99]? = some 1

theorem curvePinned_of_parts {fpr tpr : List ℚ} {auc acc : ℚ}
    {results : List (Option ResObj)} {prob : List (ℕ × Option ℚ)} {success : Bool}
    {diags : List Diag} (hf : fpr = grid100) {l : List ℚ} (ht : tpr = clampEnds l)
    (hl : l.length = 100) :
    curvePinned ⟨fpr, tpr, auc, acc, results, prob, success, diags⟩ := by
  subst hf; subst ht
  exact ⟨grid100_length, by rw [clampEnds_length]; exact hl,
    grid100_first, clampEnds_first hl, grid100_last, clampEnds_last hl⟩

/-- C5: every normally returned result of `computeCVROC` and of
`computeLOOROC` — on the success path and on every degraded path — carries
the 100-point fpr grid starting at 0 and ending at 1, and a tpr curve
whose first entry is clamped to 0 and last entry to 1: the aggregate curve
runs from (0,0) to (1,1). -/
theorem resampled_curve_endpoints :
    (∀ (ext : Ext) (model : Classifier) (df : List Row)
        (folds : List (List ℕ × List ℕ)) (r : CVResult),
        computeCVROC ext model df folds = .ok r → curvePinned r) ∧
    (∀ (ext : Ext) (model : Classifier) (df : List Row) (r : CVResult),
        computeLOOROC ext model df = .ok r → curvePinned r) := by
  constructor
  · intro ext model df folds r h
    simp only [computeCVROC] at h
    split at h
    · exact absurd h (by simp)
    split at h
    · split at h
      · split at h
        · rw [Except.ok.injEq] at h
          subst h
          exact curvePinned_of_parts rfl rfl (nanmeanCols_length _)
        · exact absurd h (by simp)
      · exact absurd h (by simp)
    · split at h
      · exact absurd h (by simp)
      · split at h
        · rw [Except.ok.injEq] at h
          subst h
          exact curvePinned_of_parts rfl rfl (interpList_grid_length _ _)
        · exact absurd h (by simp)
  · intro ext model df r h
    simp only [computeLOOROC] at h
    split at h
    · split at h
      · exact absurd h (by simp)
      · split at h
        · rw [Except.ok.injEq] at h
          subst h
          exact curvePinned_of_parts rfl rfl (interpList_grid_length _ _)
        · exact absurd h (by simp)
    · exact absurd h (by simp)
    · split at h
      · exact absurd h (by simp)
      split at h
      · exact absurd h (by simp)
      split at h
      · exact absurd h (by simp)
      split at h
      · rw [Except.ok.injEq] at h
        subst h
        exact curvePinned_of_parts rfl rfl (interpList_grid_length _ _)
      · exact absurd h (by simp)

/-- Extraction of the concrete degraded `computeCVROC` run used by the
witnesses: one fold, an always-perfectly-separating classifier. -/
def cvRunA : CVResult := ((computeCVROC extT psM dfA folds1).toOption).getD default

/-- Extraction of the concrete short-circuited `computeLOOROC` run used by
the witnesses. -/
def looRunA : CVResult := ((computeLOOROC extT psM dfA).toOption).getD default

/-- C5 (witness): the endpoint theorem applied to the concrete degraded
k-fold run and the concrete short-circuited leave-one-out run. -/
theorem resampled_curve_endpoints_witness :
    curvePinned cvRunA ∧ curvePinned looRunA :=
  ⟨resampled_curve_endpoints.1 extT psM dfA folds1 cvRunA rfl,
   resampled_curve_endpoints.2 extT psM dfA looRunA rfl⟩

/-- C6 (code-bug evidence): with a classifier whose fitted model exposes
only a plain `predict`, `computeROC` completes normally and uses the raw
predictions as the probability surrogate, but `computeCVROC` and
`computeLOOROC` raise `IndexError`: the duck-typing patch substitutes the
1-D `predict` for `predict_proba`, and the resampling loops index its
result as a 2-D array (`[:, 1]` / `[0, 1]`). -/
theorem plain_predict_model_behavior :
    (computeROC extT plainM dfA).toOption.isSome = true ∧
      (computeROC extT plainM dfA).map (fun r => r.prob) =
        .ok [(0, some 0), (1, some 0)] ∧
      computeCVROC extT plainM dfA folds1 = .error .indexError ∧
      computeLOOROC extT plainM dfA = .error .indexError :=
  ⟨rfl, rfl, rfl, rfl⟩

/-- The classifier fit on a frame succeeds (returns a fitted model rather
than raising). -/
def fitSucceeds (model : Classifier) (d : List Row) : Prop :=
  ∃ fm, model.fit (Xm d) (yv d) = .ok fm

/-- A normally returned `computeROC` carries a results object exactly when
the fit succeeded (on perfect separation it carries `None`; any other
fitting error propagates, so the call does not return normally). -/
theorem computeROC_res_isSome {ext : Ext} {model : Classifier} {d : List Row}
    {r : ROCResult} (h : computeROC ext model d = .ok r) :
    (r.res.isSome = true) ↔ fitSucceeds model (dropna d) := by
  simp only [computeROC] at h
  split at h
  · rename_i heq
    split at h
    · exact absurd h (by simp)
    · split at h
      · rw [Except.ok.injEq] at h
        subst h
        simp [fitSucceeds, heq]
      · exact absurd h (by simp)
  · exact absurd h (by simp)
  · rename_i fm heq
    split at h
    · exact absurd h (by simp)
    · split at h
      · exact absurd h (by simp)
      · split at h
        · rw [Except.ok.injEq] at h
          subst h
          simp [fitSucceeds, heq]
        · exact absurd h (by simp)

/-- A normally returned `cvFold` records a completed fold exactly when the
fit on its training slice succeeded. -/
theorem cvFold_isSome {ext : Ext} {model : Classifier} {tmp : List Row}
    {fold : List ℕ × List ℕ} {o : Option FoldData × List Diag}
    (h : cvFold ext model tmp fold = .ok o) :
    (o.1.isSome = true) ↔ fitSucceeds model (dropna (sliceOf tmp fold.1)) := by
  simp only [cvFold] at h
  split at h
  · exact absurd h (by simp)
  · rename_i r heq
    have hiff := computeROC_res_isSome heq
    split at h
    · rename_i hres
      rw [Except.ok.injEq] at h
      subst h
      rw [hres] at hiff
      simp only [Option.isSome_none] at hiff ⊢
      exact hiff
    · rename_i ro hres
      split at h
      · exact absurd h (by simp)
      · split at h
        · exact absurd h (by simp)
        · rw [Except.ok.injEq] at h
          subst h
          rw [hres] at hiff
          simp only [Option.isSome_some] at hiff ⊢
          exact hiff

/-- The fold loop returns one entry per fold. -/
theorem cvLoop_length {ext : Ext} {model : Classifier} {tmp : List Row} :
    ∀ {fs : List (List ℕ × List ℕ)} {outs : List (Option FoldData × List Diag)},
      cvLoop ext model tmp fs = .ok outs → outs.length = fs.length := by
  intro fs
  induction fs with
  | nil =>
      intro outs h
      simp only [cvLoop, Except.ok.injEq] at h
      subst h
      rfl
  | cons f fs ih =>
      intro outs h
      simp only [cvLoop] at h
      split at h
      · exact absurd h (by simp)
      · split at h
        · exact absurd h (by simp)
        · rename_i o _ os heq2
          rw [Except.ok.injEq] at h
          subst h
          simp [ih heq2]

/-- All entries of a normally returned fold loop are completed exactly when
every fold's training fit succeeded. -/
theorem cvLoop_all {ext : Ext} {model : Classifier} {tmp : List Row} :
    ∀ {fs : List (List ℕ × List ℕ)} {outs : List (Option FoldData × List Diag)},
      cvLoop ext model tmp fs = .ok outs →
      ((∀ o ∈ outs, o.1.isSome = true) ↔
        ∀ fold ∈ fs, fitSucceeds model (dropna (sliceOf tmp fold.1))) := by
  intro fs
  induction fs with
  | nil =>
      intro outs h
      simp only [cvLoop, Except.ok.injEq] at h
      subst h
      simp
  | cons f fs ih =>
      intro outs h
      simp only [cvLoop] at h
      split at h
      · exact absurd h (by simp)
      · rename_i o heq1
        split at h
        · exact absurd h (by simp)
        · rename_i os heq2
          rw [Except.ok.injEq] at h
          subst h
          simp only [List.mem_cons, forall_eq_or_imp]
          exact and_congr (cvFold_isSome heq1) (ih heq2)

/-- The filtered completed folds exhaust the loop output exactly when every
entry is completed. -/
theorem filterMap_fst_length {β γ : Type} :
    ∀ l : List (Option β × γ),
      ((l.filterMap Prod.fst).length = l.length ↔ ∀ o ∈ l, o.1.isSome = true) := by
  intro l
  induction l with
  | nil => simp
  | cons x l ih =>
      cases hx : x.1 with
      | none =>
          simp only [List.filterMap_cons, hx, List.length_cons]
          constructor
          · intro h
            have hle := List.length_filterMap_le Prod.fst l
            omega
          · intro h
            have := h x (List.mem_cons_self x l)
            rw [hx] at this
            exact absurd this (by simp)
      | some b =>
          simp only [List.filterMap_cons, hx, List.length_cons]
          constructor
          · intro h o ho
            rcases List.mem_cons.mp ho with rfl | ho'
            · simp [hx]
            · exact (ih.mp (by omega)) o ho'
          · intro h
            have := ih.mpr fun o ho => h o (List.mem_cons_of_mem _ ho)
            omega

/-- C1: a normally returned `computeCVROC` reports `success = true` exactly
when the training fit of every fold succeeded (no perfect-separation
failure); and on `success = false` it has discarded the partial fold data:
the returned curve is the whole-dataset single fit's curve interpolated
onto the 100-point grid and clamped, the auc/acc/probabilities are that
single fit's, and the results list holds just that one fit's handle. -/
theorem computeCVROC_success_iff (ext : Ext) (model : Classifier) (df : List Row)
    (folds : List (List ℕ × List ℕ)) (r : CVResult)
    (h : computeCVROC ext model df folds = .ok r) :
    (r.success = true ↔
      ∀ fold ∈ folds, fitSucceeds model (dropna (sliceOf (dropna df) fold.1))) ∧
    (r.success = false →
      ∃ s, computeROC ext model (dropna df) = .ok s ∧
        r.fpr = grid100 ∧ r.tpr = clampEnds (interpList grid100 s.fpr s.tpr) ∧
        r.auc = s.auc ∧ r.acc = s.acc ∧ r.results = [s.res] ∧ r.prob = s.prob) := by
  simp only [computeCVROC] at h
  split at h
  · exact absurd h (by simp)
  · rename_i outs heqL
    split at h
    · rename_i hcnt
      split at h
      · split at h
        · rw [Except.ok.injEq] at h
          subst h
          constructor
          · simp only [true_iff]
            exact (cvLoop_all heqL).mp
              ((filterMap_fst_length outs).mp (by rw [hcnt, cvLoop_length heqL]))
          · intro hfalse
            exact absurd hfalse (by simp)
        · exact absurd h (by simp)
      · exact absurd h (by simp)
    · rename_i hcnt
      split at h
      · exact absurd h (by simp)
      · rename_i s heqROC
        split at h
        · rw [Except.ok.injEq] at h
          subst h
          constructor
          · constructor
            · intro hh
              exact absurd hh (by simp)
            · intro hall
              have h1 : (outs.filterMap Prod.fst).length = outs.length :=
                (filterMap_fst_length outs).mpr ((cvLoop_all heqL).mpr hall)
              rw [cvLoop_length heqL] at h1
              exact absurd h1 hcnt
          · intro _
            exact ⟨s, heqROC, rfl, rfl, rfl, rfl, rfl, rfl⟩
        · exact absurd h (by simp)

/-- C1 (witness): the success iff and the degraded equalities on the
concrete one-fold run whose only fold hits perfect separation. -/
theorem computeCVROC_success_iff_witness :
    cvRunA.success = false ∧ cvRunA.fpr = grid100 ∧ cvRunA.results.length = 1 := by
  have thm := computeCVROC_success_iff extT psM dfA folds1 cvRunA rfl
  have hnot : ¬ fitSucceeds psM (dropna (sliceOf (dropna dfA) [0])) := by
    rintro ⟨fm, hfm⟩
    simp [psM, Classifier.fit] at hfm
  have hs : cvRunA.success = false := by
    cases hsucc : cvRunA.success
    · rfl
    · exact absurd (thm.1.mp hsucc (([0], [1]) : List ℕ × List ℕ) (by simp [folds1])) hnot
  obtain ⟨s, _, hfpr, _, _, _, hres, _⟩ := thm.2 hs
  exact ⟨hs, hfpr, by rw [hres]; rfl⟩

/-- C8 (witness): the formula part applied to a concrete pair of vectors
with an all-positive table and a nonzero NNT denominator. -/
theorem rocStats_formulas_witness :
    ([(1 : ℚ), 1, 0, 0, 1].length = [(1 : ℚ), 0, 1, 0, 1].length ∧
        0 < tblA [(1 : ℚ), 1, 0, 0, 1] [(1 : ℚ), 0, 1, 0, 1]) ∧
      (rocStats [(1 : ℚ), 1, 0, 0, 1] [(1 : ℚ), 0, 1, 0, 1]).map (fun s => s.nnt) =
        .ok (.fin (1 / ((tblA [(1 : ℚ), 1, 0, 0, 1] [(1 : ℚ), 0, 1, 0, 1] : ℚ) /
          ((tblA [(1 : ℚ), 1, 0, 0, 1] [(1 : ℚ), 0, 1, 0, 1] : ℚ) +
            (tblC [(1 : ℚ), 1, 0, 0, 1] [(1 : ℚ), 0, 1, 0, 1] : ℚ)) -
          (tblB [(1 : ℚ), 1, 0, 0, 1] [(1 : ℚ), 0, 1, 0, 1] : ℚ) /
          ((tblB [(1 : ℚ), 1, 0, 0, 1] [(1 : ℚ), 0, 1, 0, 1] : ℚ) +
            (tblD [(1 : ℚ), 1, 0, 0, 1] [(1 : ℚ), 0, 1, 0, 1] : ℚ))))) :=
  ⟨⟨rfl, by decide⟩,
   (rocStats_formulas.1 [(1 : ℚ), 1, 0, 0, 1] [(1 : ℚ), 0, 1, 0, 1] rfl
      (by decide) (by decide) (by decide) (by decide)).2 (by norm_num [tblA, tblB, tblC, tblD])⟩

end Utils
